import Mathlib

/-!
Verification of the musictransfer migration core against its source.

Shallow embedding of the Python sources:
- `src/musictransfer/utils/error_handling.py` (RateLimiter, retry_with_backoff)
- `src/musictransfer/converters/data_converter.py` (DataConverter)
- `src/musictransfer/engine/migration_engine.py` (MigrationEngine)
- `src/musictransfer/connectors/youtube_connector.py` (token state handling)
- `src/connectors/youtube_connector.py` (legacy HTTP connector)
- `src/connectors/spotify_connector.py` (playlist paging parameters)
- `src/musictransfer/app.py` (job status singleton, start/status endpoints)

Python exceptions are modelled by the `PyErr` type and fallible calls by
`Except PyErr`; machine floats in the sources are timestamps and progress
ratios, modelled as exact rationals (the code performs only +, -, /, *
and comparisons on them).  Python truthiness of optional strings is
modelled by `truthy`.
-/

/-- Model of the Python exception values that the migration code raises or
catches.  Only the class and the message are observable in the sources. -/
inductive PyErr where
  | valueError (msg : String)
  | keyError (msg : String)
  | indexError (msg : String)
  | runtimeError (msg : String)
  | apiError (msg : String)
  | otherError (cls msg : String)
  deriving DecidableEq, Repr

/-- Python truthiness of an optional string (`None` and `""` are falsy). -/
def truthy : Option String → Bool
  | none => false
  | some s => s ≠ ""

/-! ## RateLimiter (src/musictransfer/utils/error_handling.py, lines 10-44) -/

/-- State of `RateLimiter`: `max_calls`, `time_window` and the recorded call
timestamps (`self.calls`, oldest first). -/
structure RateLimiter where
  maxCalls : Nat
  timeWindow : ℚ
  calls : List ℚ
  deriving DecidableEq, Repr

/-- Model of `RateLimiter.acquire` at current time `now`.  Mirrors the body:
prune timestamps with `now - call_time < time_window`, if `len(calls) >=
max_calls` compute `sleep_time = time_window - (now - calls[0])` and sleep
when positive, then append `now`.  Returns the new state and the slept
duration; `calls[0]` on an empty pruned list is an `IndexError` (reachable
when `max_calls = 0`). -/
def RateLimiter.acquire (s : RateLimiter) (now : ℚ) :
    Except PyErr (RateLimiter × ℚ) :=
  let pruned := s.calls.filter (fun t => decide (now - t < s.timeWindow))
  if s.maxCalls ≤ pruned.length then
    match pruned with
    | [] => .error (.indexError "list index out of range")
    | t0 :: _ =>
      let sleepTime := s.timeWindow - (now - t0)
      let slept := if 0 < sleepTime then sleepTime else 0
      .ok ({ s with calls := pruned ++ [now] }, slept)
  else
    .ok ({ s with calls := pruned ++ [now] }, 0)

/-- Iterate `acquire` `n` times, all at the same instant `now` (the
zero-elapsed-time burst of the spec).  Returns the final state and the list
of slept durations. -/
def RateLimiter.acquireN (s : RateLimiter) (now : ℚ) :
    Nat → Except PyErr (RateLimiter × List ℚ)
  | 0 => .ok (s, [])
  | n + 1 =>
    match s.acquire now with
    | .error e => .error e
    | .ok (s', d) =>
      match s'.acquireN now n with
      | .error e => .error e
      | .ok (s'', ds) => .ok (s'', d :: ds)

/-! ## Migration job status singleton (src/musictransfer/app.py) -/

/-- The process-wide `migration_status` dictionary of `app.py` (lines 62-68):
`running`, `progress`, `description`, `result`, `error`. -/
structure MigrationStatus where
  running : Bool
  progress : ℚ
  description : String
  result : Option String
  error : Option String
  deriving DecidableEq, Repr

/-- Initial value of `migration_status` in `app.py`. -/
def initialMigrationStatus : MigrationStatus :=
  { running := false, progress := 0, description := "", result := none,
    error := none }

/-- Response of the `/api/migrate` endpoint: either an `HTTPException`
with a status code and detail, or the accepted acknowledgment. -/
inductive StartResponse where
  | httpError (status : Nat) (detail : String)
  | started
  deriving DecidableEq, Repr

/-- Model of `start_migration` (app.py lines 445-487) up to spawning the
background thread.  Inputs beyond the job status: the requested playlist id,
the two session authentication flags, and whether each connector could be
obtained from the session.  Returns the HTTP-level response and the job
status after the request. -/
def startMigration (st : MigrationStatus) (playlistId : String)
    (spotifyAuthed youtubeAuthed : Bool)
    (spotifyConn youtubeConn : Bool) : StartResponse × MigrationStatus :=
  if st.running then
    (.httpError 400 "Migration already in progress", st)
  else if playlistId = "" then
    (.httpError 400 "Missing playlist ID", st)
  else if ¬(spotifyAuthed && youtubeAuthed) then
    (.httpError 400 "Please complete platform authentication first", st)
  else if ¬spotifyConn then
    (.httpError 400 "Unable to initialize Spotify connector", st)
  else if ¬youtubeConn then
    (.httpError 400
      "YouTube authentication has expired. Please re-authenticate with YouTube.",
      st)
  else
    (.started,
      { running := true, progress := 0,
        description := "Starting migration...", result := none,
        error := none })

/-- Model of `migration_progress_callback` (app.py lines 539-545): stores
`(current / total) * 100` in the `progress` field and the description. -/
def migrationProgressCallback (st : MigrationStatus) (current total : ℚ)
    (description : String) : MigrationStatus :=
  { st with progress := current / total * 100, description := description }

/-! ## YouTube connector token state
(src/musictransfer/connectors/youtube_connector.py and the legacy
src/connectors/youtube_connector.py) -/

/-- Token-holding state of a YouTube connector instance: `self.access_token`
and `self.refresh_token`.  The `token_expiry` bookkeeping of the SDK
connector is independent of these two fields (no control flow from expiry
reaches them) and is elided. -/
structure YtTokens where
  accessToken : Option String
  refreshToken : Option String
  deriving DecidableEq, Repr

/-- A token-endpoint response dictionary, reduced to the fields the token
update logic reads: `access_token` and `refresh_token` (`none` models both
an absent key and an explicit `None` value, which `dict.get` conflates). -/
structure TokenInfo where
  accessToken : Option String
  refreshToken : Option String
  deriving DecidableEq, Repr

/-- Python truthiness of the `token_info` dictionary (an empty dict is
falsy); in this reduced model the dict is empty iff both fields are
absent. -/
def TokenInfo.isEmpty (ti : TokenInfo) : Bool :=
  ti.accessToken = none && ti.refreshToken = none

/-- Model of `YouTubeMusicConnector._update_tokens`
(src/musictransfer/connectors/youtube_connector.py lines 370-406): return
unchanged on a falsy response; overwrite `access_token` and
`refresh_token` only when the corresponding response value is truthy.
The expiry computation and the write-back of the held refresh token into
the response dict only touch elided state. -/
def updateTokens (s : YtTokens) (ti : TokenInfo) : YtTokens :=
  if ti.isEmpty then s
  else
    let s1 := if truthy ti.accessToken then
        { s with accessToken := ti.accessToken } else s
    if truthy ti.refreshToken then
      { s1 with refreshToken := ti.refreshToken } else s1

/-- Model of `YouTubeMusicConnector.apply_token_info`
(src/musictransfer/connectors/youtube_connector.py lines 169-177): return
on a falsy argument; otherwise copy the dict, inject the held refresh token
when the response has none and one is held, and delegate to
`_update_tokens`. -/
def applyTokenInfo (s : YtTokens) (ti : Option TokenInfo) : YtTokens :=
  match ti with
  | none => s
  | some ti =>
    if ti.isEmpty then s
    else
      let td :=
        if ti.refreshToken = none && truthy s.refreshToken then
          { ti with refreshToken := s.refreshToken }
        else ti
      updateTokens s td

/-- Model of `is_authenticated` of the SDK-based connector actually used by
the application (src/musictransfer/connectors/youtube_connector.py lines
112-123): `bool(self.access_token)`. -/
def isAuthenticated (s : YtTokens) : Bool :=
  truthy s.accessToken

/-- Model of `is_authenticated` of the legacy HTTP connector
(src/connectors/youtube_connector.py lines 110-129):
`bool(access_token) and bool(refresh_token)`. -/
def legacyIsAuthenticated (s : YtTokens) : Bool :=
  truthy s.accessToken && truthy s.refreshToken

/-! ## retry_with_backoff (src/musictransfer/utils/error_handling.py,
lines 46-84) -/

/-- Result of running an operation under `retry_with_backoff`: the final
outcome (the last exception is re-raised unchanged), the number of times
the wrapped operation was invoked, and the backoff delays slept between
attempts. -/
structure RetryRun (α : Type) where
  result : Except PyErr α
  attempts : Nat
  delays : List ℚ
  deriving Repr

/-- One pass of the `for attempt in range(max_retries + 1)` loop of
`retry_with_backoff`.  `op n` is the outcome of the wrapped call on
attempt number `n`; `retryable` is membership in the `exceptions` tuple
(`isinstance` against the designated classes).  A non-matching exception
is not caught by the `except exceptions` clause and propagates at once;
a matching one is re-raised when `attempt == max_retries` and otherwise
retried after sleeping `min(base_delay * 2 ** attempt, max_delay)`. -/
def retryGo (op : Nat → Except PyErr α) (retryable : PyErr → Bool)
    (baseDelay maxDelay : ℚ) : Nat → Nat → RetryRun α
  | attempt, remaining =>
    match op attempt with
    | .ok a => { result := .ok a, attempts := attempt + 1, delays := [] }
    | .error e =>
      if retryable e then
        match remaining with
        | 0 => { result := .error e, attempts := attempt + 1, delays := [] }
        | r + 1 =>
          let delay := min (baseDelay * 2 ^ attempt) maxDelay
          let rest := retryGo op retryable baseDelay maxDelay (attempt + 1) r
          { rest with delays := delay :: rest.delays }
      else { result := .error e, attempts := attempt + 1, delays := [] }

/-- Model of `retry_with_backoff(max_retries, base_delay, max_delay,
exceptions)` applied to an operation. -/
def retryWithBackoff (maxRetries : Nat) (baseDelay maxDelay : ℚ)
    (retryable : PyErr → Bool) (op : Nat → Except PyErr α) : RetryRun α :=
  retryGo op retryable baseDelay maxDelay 0 maxRetries

/-- The `exceptions` tuple the migration engine passes to
`retry_with_backoff` on every decorated method: the default
`(Exception,)`, which every `PyErr` matches. -/
def engineRetryable : PyErr → Bool := fun _ => true

/-! ## Data model (src/models/__init__.py) and converter
(src/musictransfer/converters/data_converter.py) -/

/-- The neutral `Track` dataclass, restricted to the fields the converter
populates.  `added_at` is kept as the raw `added_at` string of the source
item (the `datetime.fromisoformat` parse is not observed by any claim);
the platform-specific metadata bag is elided. -/
structure Track where
  id : String
  title : String
  artists : List String
  album : String
  durationMs : Nat
  addedAt : Option String
  deriving DecidableEq, Repr

/-- The neutral `Playlist` dataclass, restricted likewise. -/
structure Playlist where
  id : String
  name : String
  description : Option String
  tracks : List Track
  deriving DecidableEq, Repr

/-- A Spotify track object (the `"track"` value of a playlist item),
reduced to the fields `_spotify_tracks_to_common` reads: `type`, `id`,
`name`, the artist names, the album name (present when the `album` dict is
truthy and carries a name), and `duration_ms`. -/
structure SpTrackInfo where
  typ : String
  id : String
  name : String
  artistNames : List String
  album : Option String
  durationMs : Nat
  deriving DecidableEq, Repr

/-- A Spotify playlist-tracks item: the optional `"track"` value (`none`
models a falsy or absent one; for playlist-API items the raw-dict fallback
`else item` of the converter then lacks a `"type": "track"` field and the
item is skipped either way) and the raw `added_at` string. -/
structure SpItem where
  track : Option SpTrackInfo
  addedAt : Option String
  deriving DecidableEq, Repr

/-- A Spotify playlist object as read by the engine and converter:
`id`, `name`, `description`, and the `tracks.items` list (empty in the
`get_current_user_playlists` summaries; the engine overwrites it with the
fetched items). -/
structure SpPlaylistData where
  id : String
  name : String
  description : String
  trackItems : List SpItem
  deriving DecidableEq, Repr

/-- Model of `DataConverter._spotify_tracks_to_common`: skip items whose
track object is falsy or whose `type` is not `"track"`, otherwise build a
neutral `Track` (missing album name defaults to `""`). -/
def spotifyTracksToCommon (items : List SpItem) : List Track :=
  items.filterMap fun item =>
    match item.track with
    | none => none
    | some ti =>
      if ti.typ == "track" then
        some { id := ti.id, title := ti.name, artists := ti.artistNames,
               album := ti.album.getD "", durationMs := ti.durationMs,
               addedAt := item.addedAt }
      else none

/-- Model of `DataConverter.spotify_playlist_to_common`. -/
def spotifyPlaylistToCommon (spd : SpPlaylistData) : Playlist :=
  { id := spd.id, name := spd.name, description := some spd.description,
    tracks := spotifyTracksToCommon spd.trackItems }

/-- Characters YouTube titles may not contain, removed by
`common_playlist_to_youtube_title`: the class `[<>"|?*]`. -/
def isYtTitleBadChar (c : Char) : Bool :=
  c == '<' || c == '>' || c == '"' || c == '|' || c == '?' || c == '*'

/-- Model of `DataConverter.common_playlist_to_youtube_title`: truncate the
name to 100 characters, then delete the disallowed characters. -/
def commonPlaylistToYoutubeTitle (p : Playlist) : String :=
  ⟨(p.name.data.take 100).filter (fun c => !isYtTitleBadChar c)⟩

/-- The character class `\w` of the query-cleaning regex, on the ASCII
alphabet (Python matches Unicode word characters; the claims and all
inputs considered here are ASCII). -/
def isWordChar (c : Char) : Bool :=
  c.isAlphanum || c == '_'

/-- The character class `\s` of the regexes in
`create_youtube_search_query`. -/
def isWsChar (c : Char) : Bool :=
  c == ' ' || c == '\t' || c == '\n' || c == '\r' || c == '\x0b' ||
    c == '\x0c'

/-- The character class `[\w\s\-'.]` preserved by the first substitution of
`create_youtube_search_query`. -/
def isAllowedChar (c : Char) : Bool :=
  isWordChar c || isWsChar c || c == '-' || c == '\'' || c == '.'

/-- Model of `re.sub(r"[^\w\s\-'.]", " ", query)`: every character outside
the allowed class is replaced by a space. -/
def replaceDisallowed (s : List Char) : List Char :=
  s.map fun c => if isAllowedChar c then c else ' '

/-- Model of `re.sub(r"\s+", " ", query)`: every maximal whitespace run is
replaced by a single space.  The flag records whether the previous
character belonged to a run already replaced. -/
def collapseWsAux : List Char → Bool → List Char
  | [], _ => []
  | c :: cs, inRun =>
    if isWsChar c then
      if inRun then collapseWsAux cs true
      else ' ' :: collapseWsAux cs true
    else c :: collapseWsAux cs false

/-- Whitespace-run collapsing, entered outside a run. -/
def collapseWs (s : List Char) : List Char :=
  collapseWsAux s false

/-- Model of `str.strip()`: drop leading and trailing whitespace. -/
def stripWs (s : List Char) : List Char :=
  ((s.dropWhile isWsChar).reverse.dropWhile isWsChar).reverse

/-- Model of `DataConverter.create_youtube_search_query` (lines 172-191):
join the title and the comma-separated artist names with one space,
replace characters outside `[\w\s\-'.]` by a space, collapse whitespace
runs to a single space, and strip. -/
def createYoutubeSearchQuery (t : Track) : String :=
  let artistsStr := String.intercalate ", " t.artists
  let query := t.title ++ " " ++ artistsStr
  ⟨stripWs (collapseWs (replaceDisallowed query.data))⟩

/-- Query builder following the words of the specification sentence
"deterministically joins title and artist names, strips characters outside
word/space/hyphen/apostrophe/period, and collapses runs of whitespace to
one space", reading "strips"/"removes" as deletion of the offending
characters.  Kept for comparison with `createYoutubeSearchQuery`. -/
def buildQueryRemovalSpec (t : Track) : String :=
  let artistsStr := String.intercalate ", " t.artists
  let query := t.title ++ " " ++ artistsStr
  ⟨stripWs (collapseWs (query.data.filter isAllowedChar))⟩

/-! ## Migration engine (src/musictransfer/engine/migration_engine.py) -/

/-- Modelled from the spec: the paged read interface
`fetchPlaylistPage(playlistId, pageSize, offset) -> (items, isLastPage)` of
the external source service, whose wire behaviour is out of scope of the
sources.  A page at `offset` with size `limit` is the corresponding slice
of the service-side item list, exactly the `limit`/`offset` parameters
`SpotifyConnector.get_playlist_tracks` (src/connectors/spotify_connector.py
lines 168-187) forwards to the service. -/
def servicePage (allItems : List α) (limit offset : Nat) : List α :=
  (allItems.drop offset).take limit

/-- Model of the `while True` paging loop of
`MigrationEngine._get_spotify_playlist` (lines 126-147): request the page
at `offset`, extend the accumulator, stop when the page is shorter than
`limit`, else advance `offset` by `limit`.  The Python loop is unbounded;
`fuel` bounds the recursion and is chosen large enough that the loop always
stops on a short page first (see `fetchTracksLoop_slice`). -/
def fetchTracksLoop (allItems : List α) (limit : Nat) :
    Nat → Nat → List α
  | 0, _ => []
  | fuel + 1, offset =>
    let page := servicePage allItems limit offset
    if page.length < limit then page
    else page ++ fetchTracksLoop allItems limit fuel (offset + limit)

/-- The engine's track fetch: `offset = 0`, `limit = 100`, looping until a
short page. -/
def fetchAllTracks (allItems : List α) : List α :=
  fetchTracksLoop allItems 100 (allItems.length + 1) 0

/-- Environment of one migration job: the deterministic responses of the
two services.  `userPlaylists` is the user's full source playlist
collection; `trackItems` the service-side item list of the requested
playlist; `createResp` the response to the destination `create_playlist`
call (`.error` for a raised exception); `searchResp` the response of
`search_video` keyed by query; `addResp` the net outcome of
`add_video_to_playlist` keyed by playlist and video id. -/
structure MigrateEnv where
  userPlaylists : List SpPlaylistData
  trackItems : List SpItem
  createResp : String → Except PyErr (Option String)
  searchResp : String → Except PyErr (List (Option String))
  addResp : String → String → Except PyErr Unit

/-- Model of `MigrationEngine._get_spotify_playlist` (lines 97-155): fetch
the first page of the user's playlists (`get_current_user_playlists()`
with its defaults `limit=50, offset=0`), linear-search it for the requested
id and raise `ValueError` when absent, then page through the playlist's
tracks and store them as the playlist's `tracks.items`.  The
`@handle_api_errors`/`@retry_with_backoff` decorators re-execute and
re-wrap failures but are identities on a succeeding deterministic body;
they are modelled separately (`retryWithBackoff`). -/
def getSpotifyPlaylistRun (env : MigrateEnv) (playlistId : String) :
    Except PyErr SpPlaylistData :=
  let firstPage := servicePage env.userPlaylists 50 0
  match firstPage.find? (fun p => p.id == playlistId) with
  | none =>
    .error (.valueError ("Playlist with ID " ++ playlistId ++ " not found"))
  | some target =>
    .ok { target with trackItems := fetchAllTracks env.trackItems }

/-- Model of `MigrationEngine._create_youtube_playlist` (lines 157-194):
create the destination playlist with the converted title; a response
without an id raises `ValueError("Failed to create YouTube Music
playlist")`.  `env.createResp title` is the `playlist_data.get("id")` of the
connector response, or the raised exception.  The auth-specific message
rewriting of the `except` clause only decorates propagated errors and is
not observed by any claim. -/
def createYoutubePlaylistRun (env : MigrateEnv) (p : Playlist) :
    Except PyErr String :=
  match env.createResp (commonPlaylistToYoutubeTitle p) with
  | .error e => .error e
  | .ok none => .error (.valueError "Failed to create YouTube Music playlist")
  | .ok (some yid) => .ok yid

/-- One `progress_callback(current, total, description)` invocation
recorded by the engine. -/
structure ProgressCall where
  current : ℚ
  total : ℚ
  description : String
  deriving DecidableEq, Repr

/-- Body of one iteration of the `_migrate_tracks` loop (lines 216-260),
as the catch-all `try/except` reduces it: `true` iff the track was
migrated.  Each search result is reduced to its extractable
`item.get("id", {}).get("videoId")`; a raised search, an empty result
list, a missing video id, or a raised insertion all fall to the
failure branches. -/
def migrateTrackStep (env : MigrateEnv) (ytPlaylistId : String)
    (track : Track) : Bool :=
  match env.searchResp (createYoutubeSearchQuery track) with
  | .error _ => false
  | .ok [] => false
  | .ok (topVideoId :: _) =>
    match topVideoId with
    | none => false
    | some vid =>
      match env.addResp ytPlaylistId vid with
      | .error _ => false
      | .ok _ => true

/-- The `_migrate_tracks` loop over the remaining tracks: `i` is the
`enumerate` index, `migrated`/`failed` the two counters, `n` the
`total_tracks` denominator.  Returns the final counters and the progress
calls emitted after each track. -/
def migrateTracksGo (env : MigrateEnv) (ytPlaylistId : String) (n : Nat) :
    List Track → Nat → Nat → Nat → Nat × Nat × List ProgressCall
  | [], _, migrated, failed => (migrated, failed, [])
  | track :: rest, i, migrated, failed =>
    let ok := migrateTrackStep env ytPlaylistId track
    let migrated' := if ok then migrated + 1 else migrated
    let failed' := if ok then failed else failed + 1
    let call : ProgressCall :=
      { current := 3 + ((i : ℚ) + 1) / (n : ℚ), total := 4,
        description := "Migrating tracks... (" ++ toString migrated' ++
          "/" ++ toString n ++ " successful, " ++ toString failed' ++
          " failed)" }
    let (m, f, calls) :=
      migrateTracksGo env ytPlaylistId n rest (i + 1) migrated' failed'
    (m, f, call :: calls)

/-- Model of `MigrationEngine._migrate_tracks` (lines 196-276). -/
def migrateTracks (env : MigrateEnv) (p : Playlist)
    (ytPlaylistId : String) : Nat × Nat × List ProgressCall :=
  migrateTracksGo env ytPlaylistId p.tracks.length p.tracks 0 0 0

/-- Observable run of `MigrationEngine.migrate_playlist`: the returned
destination playlist id or the propagated exception, the two counters of
the track loop (zero when the job aborts before the loop; they are
observable through the progress descriptions), and all progress-callback
invocations in order. -/
structure MigrateRun where
  outcome : Except PyErr String
  migrated : Nat
  failed : Nat
  trace : List ProgressCall
  deriving Repr

/-- Model of `MigrationEngine.migrate_playlist` (lines 47-95) with the
progress callback installed (as `run_migration` does): fetch, convert,
create, per-track migration, each step preceded by its progress call; a
fetch or create failure propagates, a per-track failure only counts. -/
def migratePlaylist (env : MigrateEnv) (playlistId : String) : MigrateRun :=
  let c0 : ProgressCall :=
    { current := 0, total := 4,
      description := "Getting Spotify playlist information..." }
  match getSpotifyPlaylistRun env playlistId with
  | .error e => { outcome := .error e, migrated := 0, failed := 0,
                  trace := [c0] }
  | .ok spd =>
    let c1 : ProgressCall :=
      { current := 1, total := 4,
        description := "Converting playlist format..." }
    let commonPlaylist := spotifyPlaylistToCommon spd
    let c2 : ProgressCall :=
      { current := 2, total := 4,
        description := "Creating playlist on YouTube Music..." }
    match createYoutubePlaylistRun env commonPlaylist with
    | .error e => { outcome := .error e, migrated := 0, failed := 0,
                    trace := [c0, c1, c2] }
    | .ok ytPlaylistId =>
      let c3 : ProgressCall :=
        { current := 3, total := 4,
          description := "Migrating " ++
            toString commonPlaylist.tracks.length ++ " tracks..." }
      let (migrated, failed, loopCalls) :=
        migrateTracks env commonPlaylist ytPlaylistId
      let c4 : ProgressCall :=
        { current := 4, total := 4, description := "Migration completed!" }
      { outcome := .ok ytPlaylistId, migrated := migrated, failed := failed,
        trace := [c0, c1, c2, c3] ++ loopCalls ++ [c4] }

/-! ## Word decomposition used to characterise the query cleaning -/

/-- Split a character list at the characters satisfying `p`, keeping the
maximal runs of non-separator characters; `acc` holds the current run
reversed. -/
def wordsByAux (p : Char → Bool) : List Char → List Char → List (List Char)
  | [], acc => if acc.isEmpty then [] else [acc.reverse]
  | c :: cs, acc =>
    if p c then
      if acc.isEmpty then wordsByAux p cs []
      else acc.reverse :: wordsByAux p cs []
    else wordsByAux p cs (c :: acc)

/-- The maximal runs of characters not satisfying `p`, in order. -/
def wordsBy (p : Char → Bool) (s : List Char) : List (List Char) :=
  wordsByAux p s []

/-- Separator class of the query cleaning as a whole: whitespace, or any
character outside `[\w\s\-'.]` (the latter is first replaced by a space and
then collapsed as whitespace). -/
def querySplitChar (c : Char) : Bool :=
  isWsChar c || !isAllowedChar c

/-- Predicate on a `search_video` outcome: the search yielded no result
list entry, or the top entry has no extractable video id.  (`ok []` is
`if not search_results`; `ok (none :: _)` is a falsy
`search_results[0].get("id", {}).get("videoId")`.) -/
def noExtractableMatch (r : Except PyErr (List (Option String))) : Prop :=
  r = .ok [] ∨ ∃ rest, r = .ok (none :: rest)

/-- The source playlist as the engine sees it after the track fetch. -/
def fetchedPlaylist (env : MigrateEnv) (spd : SpPlaylistData) : Playlist :=
  spotifyPlaylistToCommon { spd with trackItems := fetchAllTracks env.trackItems }

/-! ## Concrete inputs used by witnesses and counterexamples -/

/-- A track whose title contains a character outside `[\w\s\-'.]`. -/
def trackEx : Track :=
  { id := "t1", title := "a!b", artists := [], album := "", durationMs := 0,
    addedAt := none }

/-- A playlist item wrapping a plain track. -/
def spItemEx : SpItem :=
  { track := some { typ := "track", id := "t1", name := "Song A",
                    artistNames := ["Artist X"], album := some "Album",
                    durationMs := 1000 },
    addedAt := none }

/-- A source playlist summary with id `pl1`. -/
def spPlaylistEx : SpPlaylistData :=
  { id := "pl1", name := "Roadtrip", description := "d", trackItems := [] }

/-- Environment of a job whose single track finds no destination match. -/
def envAllFail : MigrateEnv :=
  { userPlaylists := [spPlaylistEx]
    trackItems := [spItemEx]
    createResp := fun _ => .ok (some "yt1")
    searchResp := fun _ => .ok []
    addResp := fun _ _ => .ok () }

/-- Environment of a job on an empty playlist (used to exhibit the final
`(4, 4)` progress invocation). -/
def envEmpty : MigrateEnv :=
  { userPlaylists := [spPlaylistEx]
    trackItems := []
    createResp := fun _ => .ok (some "yt1")
    searchResp := fun _ => .ok []
    addResp := fun _ _ => .ok () }

/-- A user playlist collection of 51 playlists whose target, id `target`,
is the 51st entry and therefore beyond the first page of 50. -/
def manyPlaylists : List SpPlaylistData :=
  List.replicate 50
      { id := "other", name := "o", description := "", trackItems := [] } ++
    [{ id := "target", name := "wanted", description := "", trackItems := [] }]

/-- Environment whose requested playlist exists only beyond the first page
of the user's playlists. -/
def envBeyondFirstPage : MigrateEnv :=
  { userPlaylists := manyPlaylists
    trackItems := []
    createResp := fun _ => .ok (some "yt1")
    searchResp := fun _ => .ok []
    addResp := fun _ _ => .ok () }

/-! # Theorems -/

/-- C7: while a migration job is running, a second start request is
rejected with the reason "Migration already in progress" before any
mutation occurs, and every field of the running job's status (`running`,
`progress`, `description`, `result`, `error`) is returned untouched. -/
theorem startMigration_rejects_while_running (st : MigrationStatus)
    (playlistId : String) (spotifyAuthed youtubeAuthed : Bool)
    (spotifyConn youtubeConn : Bool) (h : st.running = true) :
    startMigration st playlistId spotifyAuthed youtubeAuthed spotifyConn
        youtubeConn =
      (.httpError 400 "Migration already in progress", st) := by
  simp [startMigration, h]

/-- Witness for C7: a concrete running job rejects a concrete second start
request and keeps its status unchanged. -/
theorem startMigration_rejects_while_running_witness :
    startMigration
        { running := true, progress := 1/2, description := "Migrating...",
          result := none, error := none } "pl9" true true true true =
      (.httpError 400 "Migration already in progress",
        { running := true, progress := 1/2, description := "Migrating...",
          result := none, error := none }) :=
  startMigration_rejects_while_running _ _ _ _ _ _ rfl

/-- Helper: a response without a truthy refresh token leaves the held
refresh token unchanged in `_update_tokens`. -/
theorem updateTokens_refresh_of_not_truthy (s : YtTokens) (ti : TokenInfo)
    (h : truthy ti.refreshToken = false) :
    (updateTokens s ti).refreshToken = s.refreshToken := by
  unfold updateTokens
  by_cases he : ti.isEmpty
  · simp [he]
  · by_cases ha : truthy ti.accessToken <;> simp [he, h, ha]

/-- Helper: a response carrying a nonempty refresh token overwrites the
held one in `_update_tokens`. -/
theorem updateTokens_refresh_of_some (s : YtTokens) (ti : TokenInfo)
    (rt : String) (h : ti.refreshToken = some rt) (hne : rt ≠ "") :
    (updateTokens s ti).refreshToken = some rt := by
  have hem : ti.isEmpty = false := by simp [TokenInfo.isEmpty, h]
  have ht : truthy (some rt) = true := by simp [truthy, hne]
  unfold updateTokens
  simp [hem, ht, h]

/-- Helper: `apply_token_info` on a response lacking a refresh token
leaves the held refresh token unchanged. -/
theorem applyTokenInfo_refresh_of_none (s : YtTokens) (ti : TokenInfo)
    (h : ti.refreshToken = none) :
    (applyTokenInfo s (some ti)).refreshToken = s.refreshToken := by
  unfold applyTokenInfo
  by_cases he : ti.isEmpty
  · simp [he]
  · by_cases hr : truthy s.refreshToken
    · rcases hrs : s.refreshToken with _ | rt
      · simp [truthy, hrs] at hr
      · have hrt : rt ≠ "" := by
          by_contra hc
          simp [truthy, hrs, hc] at hr
        have htr : truthy (some rt) = true := by simp [truthy, hrt]
        have hset := updateTokens_refresh_of_some s
          { ti with refreshToken := some rt } rt rfl hrt
        simp only [he, Bool.false_eq_true, if_false, h, hr, hrs]
        simpa [hrs, htr] using hset
    · have hkeep := updateTokens_refresh_of_not_truthy s ti
        (by simp [h, truthy])
      simp only [he, Bool.false_eq_true, if_false, h, hr]
      simpa using hkeep

/-- C5: `_update_tokens` keeps the held refresh token when the response
carries no `refresh_token`, and replaces it when the response carries a
(nonempty, i.e. truthy) one; `apply_token_info` likewise keeps the held
refresh token when the response lacks one. -/
theorem updateTokens_refresh_retention (s : YtTokens) (ti : TokenInfo) :
    ((ti.refreshToken = none →
        (updateTokens s ti).refreshToken = s.refreshToken) ∧
      (∀ rt, ti.refreshToken = some rt → rt ≠ "" →
        (updateTokens s ti).refreshToken = some rt)) ∧
    (ti.refreshToken = none →
      (applyTokenInfo s (some ti)).refreshToken = s.refreshToken) :=
  ⟨⟨fun hnone =>
      updateTokens_refresh_of_not_truthy s ti (by simp [hnone, truthy]),
    fun rt hsome hne => updateTokens_refresh_of_some s ti rt hsome hne⟩,
   fun hnone => applyTokenInfo_refresh_of_none s ti hnone⟩

/-- Witness for C5: a response without a refresh token keeps the held
token `oldrt`; a response with `newrt` replaces it. -/
theorem updateTokens_refresh_retention_witness :
    (updateTokens { accessToken := some "acc", refreshToken := some "oldrt" }
        { accessToken := some "newacc", refreshToken := none }).refreshToken =
      some "oldrt" ∧
    (updateTokens { accessToken := some "acc", refreshToken := some "oldrt" }
        { accessToken := none, refreshToken := some "newrt" }).refreshToken =
      some "newrt" ∧
    (applyTokenInfo { accessToken := some "acc", refreshToken := some "oldrt" }
        (some { accessToken := some "newacc", refreshToken := none })).refreshToken =
      some "oldrt" :=
  ⟨(updateTokens_refresh_retention _ _).1.1 rfl,
   (updateTokens_refresh_retention _ _).1.2 "newrt" rfl (by decide),
   (updateTokens_refresh_retention _ _).2 rfl⟩

/-- Counterexample to C6 as stated: the SDK-based destination connector the
application uses reports a credential holding only an access token as
authenticated. -/
theorem isAuthenticated_access_only_counterexample :
    isAuthenticated { accessToken := some "tok", refreshToken := none } =
      true := by
  decide

/-- C6 amended: the destination connector used by the application
(src/musictransfer/connectors/youtube_connector.py) reports authenticated
iff a (nonempty) access token is present, regardless of the refresh token;
only the legacy connector (src/connectors/youtube_connector.py) requires
both tokens. -/
theorem isAuthenticated_characterization (s : YtTokens) :
    (isAuthenticated s = true ↔ ∃ a, s.accessToken = some a ∧ a ≠ "") ∧
    (legacyIsAuthenticated s = true ↔
      (∃ a, s.accessToken = some a ∧ a ≠ "") ∧
      ∃ r, s.refreshToken = some r ∧ r ≠ "") := by
  have htruthy : ∀ o : Option String,
      truthy o = true ↔ ∃ x, o = some x ∧ x ≠ "" := by
    intro o
    cases o <;> simp [truthy]
  constructor
  · simpa [isAuthenticated] using htruthy s.accessToken
  · simp only [legacyIsAuthenticated, Bool.and_eq_true]
    rw [htruthy s.accessToken, htruthy s.refreshToken]

/-- Helper: `acquire` below capacity after pruning appends the timestamp
and sleeps 0. -/
theorem acquire_below_capacity (s : RateLimiter) (now : ℚ)
    (h : (s.calls.filter
        (fun t => decide (now - t < s.timeWindow))).length < s.maxCalls) :
    s.acquire now =
      .ok ({ s with calls :=
        s.calls.filter (fun t => decide (now - t < s.timeWindow)) ++ [now] },
        0) := by
  unfold RateLimiter.acquire
  simp [Nat.not_le.mpr h]

/-- Helper: `acquire` at or above capacity, with `t0` the oldest retained
call: append the timestamp and sleep the clamped remainder of the
window. -/
theorem acquire_at_capacity (s : RateLimiter) (now t0 : ℚ) (rest : List ℚ)
    (hp : s.calls.filter (fun t => decide (now - t < s.timeWindow)) =
      t0 :: rest)
    (hcap : s.maxCalls ≤ (t0 :: rest).length) :
    s.acquire now =
      .ok ({ s with calls := (t0 :: rest) ++ [now] },
        if 0 < s.timeWindow - (now - t0) then s.timeWindow - (now - t0)
        else 0) := by
  unfold RateLimiter.acquire
  simp only [hp]
  rw [if_pos hcap]

/-- Helper: unfolding of `acquireN` across one successful `acquire`. -/
theorem acquireN_succ_ok (s s' : RateLimiter) (now d : ℚ) (n : Nat)
    (h : s.acquire now = .ok (s', d)) :
    s.acquireN now (n + 1) =
      match s'.acquireN now n with
      | .error e => .error e
      | .ok (s'', ds) => .ok (s'', d :: ds) := by
  conv_lhs => rw [RateLimiter.acquireN, h]

/-- Helper: the prune filter keeps a burst of identical timestamps. -/
theorem filter_replicate_burst (k : Nat) (w t : ℚ) (hw : 0 < w) :
    (List.replicate k t).filter (fun u => decide (t - u < w)) =
      List.replicate k t := by
  rw [List.filter_eq_self]
  intro a ha
  have : a = t := List.eq_of_mem_replicate ha
  simp [this, hw]

/-- Helper: one `acquire` in a burst of identical timestamps below
capacity. -/
theorem acquire_burst_step (m k : Nat) (w t : ℚ) (hw : 0 < w)
    (hk : k < m) :
    RateLimiter.acquire ⟨m, w, List.replicate k t⟩ t =
      .ok (⟨m, w, List.replicate (k + 1) t⟩, 0) := by
  have hlen : ((List.replicate k t).filter
      (fun u => decide (t - u < w))).length < m := by
    rw [filter_replicate_burst k w t hw, List.length_replicate]
    exact hk
  rw [acquire_below_capacity ⟨m, w, List.replicate k t⟩ t hlen,
    filter_replicate_burst k w t hw, ← List.replicate_succ']

/-- Helper: the `acquire` that finds the window full sleeps the whole
window when all retained calls are at the current instant. -/
theorem acquire_burst_at_capacity (m : Nat) (w t : ℚ) (hm : 1 ≤ m)
    (hw : 0 < w) :
    RateLimiter.acquire ⟨m, w, List.replicate m t⟩ t =
      .ok (⟨m, w, List.replicate (m + 1) t⟩, w) := by
  obtain ⟨m', rfl⟩ : ∃ m', m = m' + 1 := ⟨m - 1, by omega⟩
  have hfilter :
      (List.replicate (m' + 1) t).filter (fun u => decide (t - u < w)) =
        t :: List.replicate m' t := by
    rw [filter_replicate_burst (m' + 1) w t hw, List.replicate_succ]
  have hcap : m' + 1 ≤ (t :: List.replicate m' t).length := by simp
  rw [acquire_at_capacity ⟨m' + 1, w, List.replicate (m' + 1) t⟩ t t
    (List.replicate m' t) hfilter hcap]
  have hsleep : (0 : ℚ) < w - (t - t) := by simpa using hw
  rw [if_pos hsleep]
  have hcalls : (t :: List.replicate m' t) ++ [t] =
      List.replicate (m' + 1 + 1) t := by
    rw [← List.replicate_succ, ← List.replicate_succ']
  rw [hcalls]
  have hslept : w - (t - t) = w := by ring
  rw [hslept]

/-- Helper: a burst of `j` acquires at one instant from `k` recorded
identical timestamps, where the `j`-th hits capacity exactly. -/
theorem acquireN_burst (m : Nat) (w t : ℚ) (hm : 1 ≤ m) (hw : 0 < w) :
    ∀ j k, k + j = m + 1 → 1 ≤ j →
      RateLimiter.acquireN ⟨m, w, List.replicate k t⟩ t j =
        .ok (⟨m, w, List.replicate (m + 1) t⟩,
          List.replicate (j - 1) 0 ++ [w]) := by
  intro j
  induction j with
  | zero => intro k _ h1; omega
  | succ j ih =>
    intro k hk _
    cases j with
    | zero =>
      have hkm : k = m := by omega
      rw [hkm, acquireN_succ_ok _ _ _ _ _
        (acquire_burst_at_capacity m w t hm hw)]
      simp [RateLimiter.acquireN]
    | succ j' =>
      have hkstep : k < m := by omega
      have hrec := ih (k + 1) (by omega) (by omega)
      rw [acquireN_succ_ok _ _ _ _ _
        (acquire_burst_step m k w t hw hkstep), hrec]
      simp [List.replicate_succ]

/-- C4 amended: provided `max_calls ≥ 1`, `acquire` prunes timestamps
older than the window, sleeps `max 0 (time_window - (now - oldest
retained))` exactly when the retained calls reach capacity, records one
timestamp and raises no error; and a burst of `max_calls + 1` acquires in
zero elapsed time sleeps 0 on the first `max_calls` of them and exactly
`time_window` on the last.  (As stated the claim fails only for
`max_calls = 0`, where the oldest-call lookup raises `IndexError`, see the
counterexample.) -/
theorem rateLimiter_sliding_window (s : RateLimiter) (now : ℚ)
    (hm : 1 ≤ s.maxCalls) :
    (s.acquire now =
      .ok ({ s with calls :=
          s.calls.filter (fun t => decide (now - t < s.timeWindow)) ++ [now] },
        if s.maxCalls ≤ (s.calls.filter
            (fun t => decide (now - t < s.timeWindow))).length then
          max 0 (s.timeWindow -
            (now - (s.calls.filter
              (fun t => decide (now - t < s.timeWindow))).headD 0))
        else 0)) ∧
    (∀ (m : Nat) (w t : ℚ), 1 ≤ m → 0 < w →
      RateLimiter.acquireN ⟨m, w, []⟩ t (m + 1) =
        .ok (⟨m, w, List.replicate (m + 1) t⟩,
          List.replicate m 0 ++ [w])) := by
  constructor
  · by_cases hcap : s.maxCalls ≤ (s.calls.filter
        (fun t => decide (now - t < s.timeWindow))).length
    · rcases hp : s.calls.filter (fun t => decide (now - t < s.timeWindow))
        with _ | ⟨t0, rest⟩
      · rw [hp] at hcap
        simp at hcap
        omega
      · rw [hp] at hcap
        rw [acquire_at_capacity s now t0 rest hp hcap, if_pos hcap,
          List.headD_cons]
        rcases le_or_lt (s.timeWindow - (now - t0)) 0 with hle | hlt
        · rw [if_neg (not_lt.mpr hle), max_eq_left hle]
        · rw [if_pos hlt, max_eq_right hlt.le]
    · rw [acquire_below_capacity s now (Nat.not_le.mp hcap), if_neg hcap]
  · intro m w t hm' hw
    have := acquireN_burst m w t hm' hw (m + 1) 0 (by omega) (by omega)
    simpa using this

/-- Witness for C4: with `max_calls = 2`, `time_window = 1`, three
acquires at instant 0 sleep `[0, 0, 1]`, and a single acquire on a fresh
limiter records exactly its timestamp. -/
theorem rateLimiter_sliding_window_witness :
    RateLimiter.acquireN ⟨2, 1, []⟩ 0 3 =
      .ok (⟨2, 1, [0, 0, 0]⟩, [0, 0, 1]) ∧
    RateLimiter.acquire ⟨2, 1, []⟩ 0 = .ok (⟨2, 1, [0]⟩, 0) := by
  constructor
  · have h := (rateLimiter_sliding_window ⟨2, 1, []⟩ 0 (by norm_num)).2
      2 1 0 (by norm_num) (by norm_num)
    simpa using h
  · have h := (rateLimiter_sliding_window ⟨2, 1, []⟩ 0 (by norm_num)).1
    simpa using h

/-- Counterexample to C4 as stated: with `max_calls = 0` and no recorded
calls, `acquire` evaluates `self.calls[0]` on an empty list and raises
`IndexError` instead of recording a timestamp without error. -/
theorem rateLimiter_acquire_error_counterexample :
    RateLimiter.acquire ⟨0, 1, []⟩ 0 =
      .error (.indexError "list index out of range") := rfl

/-- Helper: a failing attempt whose exception is not designated retryable
ends the loop at once, propagating the exception unchanged. -/
theorem retryGo_not_retryable (op : Nat → Except PyErr α)
    (retryable : PyErr → Bool) (b m : ℚ) (attempt remaining : Nat)
    (e : PyErr) (h : op attempt = .error e) (hr : retryable e = false) :
    retryGo op retryable b m attempt remaining =
      { result := .error e, attempts := attempt + 1, delays := [] } := by
  conv_lhs => rw [retryGo, h]
  simp [hr]

/-- Helper: a failing retryable attempt with no retries remaining
re-raises the exception. -/
theorem retryGo_retryable_last (op : Nat → Except PyErr α)
    (retryable : PyErr → Bool) (b m : ℚ) (attempt : Nat) (e : PyErr)
    (h : op attempt = .error e) (hr : retryable e = true) :
    retryGo op retryable b m attempt 0 =
      { result := .error e, attempts := attempt + 1, delays := [] } := by
  conv_lhs => rw [retryGo, h]
  simp [hr]

/-- Helper: a failing retryable attempt with retries remaining sleeps the
backoff delay and continues with the next attempt. -/
theorem retryGo_retryable_step (op : Nat → Except PyErr α)
    (retryable : PyErr → Bool) (b m : ℚ) (attempt r : Nat) (e : PyErr)
    (h : op attempt = .error e) (hr : retryable e = true) :
    retryGo op retryable b m attempt (r + 1) =
      { result := (retryGo op retryable b m (attempt + 1) r).result,
        attempts := (retryGo op retryable b m (attempt + 1) r).attempts,
        delays := min (b * 2 ^ attempt) m ::
          (retryGo op retryable b m (attempt + 1) r).delays } := by
  conv_lhs => rw [retryGo, h]
  simp [hr]

/-- Counterexample to C3 as stated: the engine wraps the fetch step with
`retry_with_backoff(max_retries=3, base_delay=1.0, max_delay=10.0)` and
the decorator's default `exceptions=(Exception,)`, which designates every
exception retryable; the `ValueError` raised for an absent playlist is
therefore attempted 4 times (retried 3 times with backoff delays 1, 2, 4)
before being propagated — not propagated on the first attempt. -/
theorem retry_notFound_retried_counterexample :
    (retryWithBackoff 3 1 10 engineRetryable
      (fun _ => (.error (.valueError
        "Playlist with ID abc not found") : Except PyErr String))).attempts
        = 4 ∧
    (retryWithBackoff 3 1 10 engineRetryable
      (fun _ => (.error (.valueError
        "Playlist with ID abc not found") : Except PyErr String))).delays ≠
        [] := by
  constructor
  · rfl
  · simp [retryWithBackoff, retryGo, engineRetryable]

/-- C3 amended: `retry_with_backoff` retries exactly the exceptions
matching its `exceptions` tuple — any non-designated exception propagates
unchanged on the first attempt with no retry — but the engine's fetch
step designates all exceptions (`(Exception,)`), so the NotFound
`ValueError` is retried `max_retries = 3` times (4 attempts, backoff
delays 1, 2, 4 seconds) and only then propagated unchanged. -/
theorem retryWithBackoff_designation {α : Type}
    (op : Nat → Except PyErr α) (retryable : PyErr → Bool)
    (maxRetries : Nat) (b m : ℚ) (e : PyErr) :
    (retryable e = false → op 0 = .error e →
      retryWithBackoff maxRetries b m retryable op =
        { result := .error e, attempts := 1, delays := [] }) ∧
    ((∀ k, op k = .error e) →
      retryWithBackoff 3 1 10 engineRetryable op =
        { result := .error e, attempts := 4, delays := [1, 2, 4] }) := by
  constructor
  · intro hr h0
    unfold retryWithBackoff
    exact retryGo_not_retryable op retryable b m 0 maxRetries e h0 hr
  · intro hall
    unfold retryWithBackoff
    rw [retryGo_retryable_step op engineRetryable 1 10 0 2 e (hall 0) rfl,
      retryGo_retryable_step op engineRetryable 1 10 1 1 e (hall 1) rfl,
      retryGo_retryable_step op engineRetryable 1 10 2 0 e (hall 2) rfl,
      retryGo_retryable_last op engineRetryable 1 10 3 e (hall 3) rfl]
    norm_num

/-- Witness for C3: a non-designated exception class (an empty
`exceptions` tuple) propagates a concrete failure after exactly one
attempt, while the engine's all-exceptions designation reattempts the
concrete NotFound failure 4 times. -/
theorem retryWithBackoff_designation_witness :
    retryWithBackoff 3 1 10 (fun _ => false)
        (fun _ => (.error (.valueError "boom") : Except PyErr Unit)) =
      { result := .error (.valueError "boom"), attempts := 1,
        delays := [] } ∧
    retryWithBackoff 3 1 10 engineRetryable
        (fun _ => (.error (.valueError
          "Playlist with ID abc not found") : Except PyErr Unit)) =
      { result := .error (.valueError "Playlist with ID abc not found"),
        attempts := 4, delays := [1, 2, 4] } :=
  ⟨(retryWithBackoff_designation _ (fun _ => false) 3 1 10
      (.valueError "boom")).1 rfl rfl,
   (retryWithBackoff_designation _ engineRetryable 3 1 10
      (.valueError "Playlist with ID abc not found")).2 (fun _ => rfl)⟩

/-- Helper: with pages served as slices of the service-side list, the
paging loop with enough fuel returns exactly the suffix from its starting
offset. -/
theorem fetchTracksLoop_slice (allItems : List α) (limit : Nat) :
    ∀ fuel offset, allItems.length ≤ offset + limit * fuel →
      fetchTracksLoop allItems limit fuel offset = allItems.drop offset := by
  intro fuel
  induction fuel with
  | zero =>
    intro offset hlen
    have : allItems.drop offset = [] :=
      List.drop_eq_nil_of_le (by omega)
    rw [fetchTracksLoop, this]
  | succ fuel ih =>
    intro offset hlen
    rw [fetchTracksLoop]
    by_cases hshort :
        (servicePage allItems limit offset).length < limit
    · rw [if_pos hshort]
      have hdroplen : (allItems.drop offset).length ≤ limit := by
        have := hshort
        unfold servicePage at this
        rw [List.length_take] at this
        omega
      unfold servicePage
      exact List.take_of_length_le hdroplen
    · rw [if_neg hshort]
      have hmul : limit * (fuel + 1) = limit * fuel + limit := by ring
      rw [ih (offset + limit) (by omega)]
      unfold servicePage
      rw [← List.drop_drop]
      exact List.take_append_drop limit (allItems.drop offset)

/-- C2: the track fetch pages with fixed size 100 from offset 0,
accumulating pages until a short one; for a source playlist of 237 items
the three pages served have lengths 100, 100 and 37, the result is their
in-order concatenation, and it equals the full service-side list — 237
tracks, none duplicated or lost, and no partial page surfaced. -/
theorem fetchAllTracks_pages_100_100_37 (allItems : List SpItem)
    (hlen : allItems.length = 237) :
    fetchAllTracks allItems =
      servicePage allItems 100 0 ++ servicePage allItems 100 100 ++
        servicePage allItems 100 200 ∧
    fetchAllTracks allItems = allItems ∧
    (fetchAllTracks allItems).length = 237 ∧
    (servicePage allItems 100 0).length = 100 ∧
    (servicePage allItems 100 100).length = 100 ∧
    (servicePage allItems 100 200).length = 37 := by
  have hall : fetchAllTracks allItems = allItems := by
    unfold fetchAllTracks
    rw [fetchTracksLoop_slice allItems 100 (allItems.length + 1)
      0 (by omega)]
    exact List.drop_zero allItems
  have hp0 : (servicePage allItems 100 0).length = 100 := by
    unfold servicePage
    rw [List.length_take, List.length_drop, hlen]
    omega
  have hp1 : (servicePage allItems 100 100).length = 100 := by
    unfold servicePage
    rw [List.length_take, List.length_drop, hlen]
    omega
  have hp2 : (servicePage allItems 100 200).length = 37 := by
    unfold servicePage
    rw [List.length_take, List.length_drop, hlen]
    omega
  refine ⟨?_, hall, by rw [hall, hlen], hp0, hp1, hp2⟩
  rw [hall]
  unfold servicePage
  calc allItems
      = allItems.drop 0 := (List.drop_zero allItems).symm
    _ = (allItems.drop 0).take 100 ++ (allItems.drop 0).drop 100 :=
        (List.take_append_drop 100 (allItems.drop 0)).symm
    _ = (allItems.drop 0).take 100 ++ allItems.drop 100 := by
        rw [List.drop_drop]
    _ = (allItems.drop 0).take 100 ++
          ((allItems.drop 100).take 100 ++ (allItems.drop 100).drop 100) := by
        rw [List.take_append_drop 100 (allItems.drop 100)]
    _ = (allItems.drop 0).take 100 ++
          ((allItems.drop 100).take 100 ++ allItems.drop 200) := by
        rw [List.drop_drop]
    _ = (allItems.drop 0).take 100 ++ (allItems.drop 100).take 100 ++
          (allItems.drop 200).take 100 := by
        rw [List.take_of_length_le (l := allItems.drop 200)
          (by rw [List.length_drop, hlen]; omega), List.append_assoc]

/-- Witness for C2: a concrete 237-item service-side list is fetched whole
with the 100/100/37 page pattern. -/
theorem fetchAllTracks_pages_100_100_37_witness :
    fetchAllTracks (List.replicate 237 ({ track := none, addedAt := none } :
        SpItem)) =
      List.replicate 237 { track := none, addedAt := none } ∧
    (fetchAllTracks (List.replicate 237 ({ track := none, addedAt := none } :
        SpItem))).length = 237 := by
  have h := fetchAllTracks_pages_100_100_37
    (List.replicate 237 { track := none, addedAt := none })
    (by rw [List.length_replicate])
  exact ⟨h.2.1, h.2.2.1⟩

/-- C10: the source-playlist metadata lookup inspects only the first page
(at most 50 entries, the connector's default page size) of the user's
playlists; a playlist that exists for the user but not in that first page
makes the fetch — and with it the whole job — fail with the
`Playlist ... not found` error. -/
theorem firstPage_lookup_misses_existing_playlist (env : MigrateEnv)
    (pid : String)
    (_hexists : pid ∈ env.userPlaylists.map SpPlaylistData.id)
    (hnotfirst : ∀ p ∈ env.userPlaylists.take 50, p.id ≠ pid) :
    getSpotifyPlaylistRun env pid =
      .error (.valueError ("Playlist with ID " ++ pid ++ " not found")) ∧
    (migratePlaylist env pid).outcome =
      .error (.valueError ("Playlist with ID " ++ pid ++ " not found")) := by
  have hfind : (servicePage env.userPlaylists 50 0).find?
      (fun p => p.id == pid) = none := by
    rw [List.find?_eq_none]
    intro p hp
    unfold servicePage at hp
    rw [List.drop_zero] at hp
    simp only [beq_iff_eq]
    exact hnotfirst p hp
  have hg : getSpotifyPlaylistRun env pid =
      .error (.valueError ("Playlist with ID " ++ pid ++ " not found")) := by
    simp only [getSpotifyPlaylistRun, hfind]
  refine ⟨hg, ?_⟩
  simp only [migratePlaylist, hg]

/-- Witness for C10: 51 playlists whose target sits at position 51; the
fetch fails with the not-found error although the playlist exists. -/
theorem firstPage_lookup_misses_existing_playlist_witness :
    getSpotifyPlaylistRun envBeyondFirstPage "target" =
      .error (.valueError "Playlist with ID target not found") ∧
    (migratePlaylist envBeyondFirstPage "target").outcome =
      .error (.valueError "Playlist with ID target not found") :=
  firstPage_lookup_misses_existing_playlist envBeyondFirstPage "target"
    (by decide) (by decide)

/-- Helper: when every remaining track's search yields no extractable
match, the loop migrates none of them and counts each one failed. -/
theorem migrateTracksGo_nomatch (env : MigrateEnv) (ytid : String)
    (n : Nat) :
    ∀ (tracks : List Track) (i mct fct : Nat),
      (∀ t ∈ tracks,
        noExtractableMatch (env.searchResp (createYoutubeSearchQuery t))) →
      (migrateTracksGo env ytid n tracks i mct fct).1 = mct ∧
      (migrateTracksGo env ytid n tracks i mct fct).2.1 =
        fct + tracks.length := by
  intro tracks
  induction tracks with
  | nil =>
    intro i mct fct _
    constructor <;> simp [migrateTracksGo]
  | cons t ts ih =>
    intro i mct fct h
    have hstep : migrateTrackStep env ytid t = false := by
      rcases h t (List.mem_cons_self t ts) with h1 | ⟨rest, h2⟩
      · unfold migrateTrackStep
        rw [h1]
      · unfold migrateTrackStep
        rw [h2]
    have hrec := ih (i + 1) mct (fct + 1)
      (fun u hu => h u (List.mem_cons_of_mem t hu))
    rcases hX : migrateTracksGo env ytid n ts (i + 1) mct (fct + 1)
      with ⟨m, f, calls⟩
    rw [hX] at hrec
    simp only at hrec
    unfold migrateTracksGo
    rw [hstep]
    simp only [Bool.false_eq_true, if_false, hX]
    constructor
    · exact hrec.1
    · have := hrec.2
      simp only [List.length_cons]
      omega

/-- C1: when the source fetch finds the playlist and the destination
playlist is created with id `yid`, `migrate_playlist` returns `yid` no
matter how the per-track searches and insertions behave (no per-track
failure aborts the job or escapes the loop); and when every per-track
search yields no match or a top result without an extractable video id,
the failed-track counter equals the number `N` of converted tracks and
none is migrated. -/
theorem migratePlaylist_counts_all_failures (env : MigrateEnv)
    (pid : String) (spd : SpPlaylistData) (yid : String)
    (hfind : (servicePage env.userPlaylists 50 0).find?
      (fun p => p.id == pid) = some spd)
    (hcreate : createYoutubePlaylistRun env (fetchedPlaylist env spd) =
      .ok yid) :
    (migratePlaylist env pid).outcome = .ok yid ∧
    ((∀ t ∈ (fetchedPlaylist env spd).tracks,
        noExtractableMatch (env.searchResp (createYoutubeSearchQuery t))) →
      (migratePlaylist env pid).failed =
        (fetchedPlaylist env spd).tracks.length ∧
      (migratePlaylist env pid).migrated = 0) := by
  have hg : getSpotifyPlaylistRun env pid =
      .ok { spd with trackItems := fetchAllTracks env.trackItems } := by
    simp only [getSpotifyPlaylistRun, hfind]
  have hcreate' : createYoutubePlaylistRun env (spotifyPlaylistToCommon
      { spd with trackItems := fetchAllTracks env.trackItems }) =
      .ok yid := hcreate
  rcases hM : migrateTracks env (spotifyPlaylistToCommon
      { spd with trackItems := fetchAllTracks env.trackItems }) yid
    with ⟨mm, ff, cc⟩
  have hrun : migratePlaylist env pid =
      { outcome := .ok yid, migrated := mm, failed := ff,
        trace := [⟨0, 4, "Getting Spotify playlist information..."⟩,
          ⟨1, 4, "Converting playlist format..."⟩,
          ⟨2, 4, "Creating playlist on YouTube Music..."⟩,
          ⟨3, 4, "Migrating " ++ toString (spotifyPlaylistToCommon
            { spd with
              trackItems := fetchAllTracks env.trackItems }).tracks.length ++
            " tracks..."⟩] ++ cc ++
          [⟨4, 4, "Migration completed!"⟩] } := by
    simp only [migratePlaylist, hg, hcreate', hM]
  refine ⟨by rw [hrun], fun hnm => ?_⟩
  have hcount := migrateTracksGo_nomatch env yid
    (spotifyPlaylistToCommon
      { spd with trackItems := fetchAllTracks env.trackItems }).tracks.length
    (spotifyPlaylistToCommon
      { spd with trackItems := fetchAllTracks env.trackItems }).tracks
    0 0 0 hnm
  have hMGo : migrateTracksGo env yid (spotifyPlaylistToCommon
      { spd with
        trackItems := fetchAllTracks env.trackItems }).tracks.length
      (spotifyPlaylistToCommon
        { spd with trackItems := fetchAllTracks env.trackItems }).tracks
      0 0 0 = (mm, ff, cc) := hM
  rw [hMGo] at hcount
  simp only at hcount
  rw [hrun]
  constructor
  · simpa using hcount.2
  · simpa using hcount.1

/-- Witness for C1: a one-track playlist whose only search returns no
results migrates zero tracks, counts one failure, and still returns the
created playlist id `yt1`. -/
theorem migratePlaylist_counts_all_failures_witness :
    (migratePlaylist envAllFail "pl1").outcome = .ok "yt1" ∧
    (migratePlaylist envAllFail "pl1").failed = 1 ∧
    (migratePlaylist envAllFail "pl1").migrated = 0 := by
  have h := migratePlaylist_counts_all_failures envAllFail "pl1"
    spPlaylistEx "yt1" rfl rfl
  have h2 := h.2 (fun t _ => Or.inl rfl)
  have hlen : (fetchedPlaylist envAllFail spPlaylistEx).tracks.length = 1 :=
    rfl
  exact ⟨h.1, by rw [h2.1]; exact hlen, h2.2⟩

/-- Helper: every progress call the track loop emits has total 4 and a
current step between 0 and 4, as long as the starting index plus the
remaining tracks stays within the denominator `n`. -/
theorem migrateTracksGo_trace_bounds (env : MigrateEnv) (ytid : String)
    (n : Nat) :
    ∀ (tracks : List Track) (i mct fct : Nat), i + tracks.length ≤ n →
      ∀ c ∈ (migrateTracksGo env ytid n tracks i mct fct).2.2,
        c.total = 4 ∧ 0 ≤ c.current ∧ c.current ≤ 4 := by
  intro tracks
  induction tracks with
  | nil =>
    intro i mct fct _ c hc
    simp [migrateTracksGo] at hc
  | cons t ts ih =>
    intro i mct fct hle c hc
    rcases hX : migrateTracksGo env ytid n ts (i + 1)
        (if migrateTrackStep env ytid t then mct + 1 else mct)
        (if migrateTrackStep env ytid t then fct else fct + 1)
      with ⟨m, f, calls⟩
    simp only [migrateTracksGo, hX] at hc
    have hn1 : 1 ≤ n := by
      simp only [List.length_cons] at hle
      omega
    have hn0 : (0 : ℚ) < (n : ℚ) := by exact_mod_cast hn1
    rcases List.mem_cons.mp hc with hhead | htail
    · subst hhead
      refine ⟨rfl, ?_, ?_⟩
      · have : (0 : ℚ) ≤ ((i : ℚ) + 1) / (n : ℚ) :=
          div_nonneg (by positivity) (le_of_lt hn0)
        simp only
        linarith
      · have hile : ((i : ℚ) + 1) ≤ (n : ℚ) := by
          have : i + 1 ≤ n := by
            simp only [List.length_cons] at hle
            omega
          exact_mod_cast this
        have : ((i : ℚ) + 1) / (n : ℚ) ≤ 1 := (div_le_one hn0).mpr hile
        simp only
        linarith
    · have hle' : (i + 1) + ts.length ≤ n := by
        simp only [List.length_cons] at hle
        omega
      have := ih (i + 1)
        (if migrateTrackStep env ytid t then mct + 1 else mct)
        (if migrateTrackStep env ytid t then fct else fct + 1) hle' c
      rw [hX] at this
      exact this htail

/-- Helper: every progress call emitted by a migration run has total 4 and
a current step between 0 and 4. -/
theorem migratePlaylist_trace_bounds (env : MigrateEnv) (pid : String) :
    ∀ c ∈ (migratePlaylist env pid).trace,
      c.total = 4 ∧ 0 ≤ c.current ∧ c.current ≤ 4 := by
  intro c hc
  cases hga : getSpotifyPlaylistRun env pid with
  | error e =>
    simp only [migratePlaylist, hga] at hc
    simp at hc
    subst hc
    refine ⟨rfl, by norm_num, by norm_num⟩
  | ok spd =>
    cases hcb : createYoutubePlaylistRun env (spotifyPlaylistToCommon spd)
      with
    | error e =>
      simp only [migratePlaylist, hga, hcb] at hc
      simp at hc
      rcases hc with h | h | h <;> subst h <;>
        exact ⟨rfl, by norm_num, by norm_num⟩
    | ok yid =>
      rcases hM : migrateTracks env (spotifyPlaylistToCommon spd) yid
        with ⟨mm, ff, cc⟩
      simp only [migratePlaylist, hga, hcb, hM] at hc
      simp at hc
      rcases hc with h | h | h | h | h | h
      · subst h; exact ⟨rfl, by norm_num, by norm_num⟩
      · subst h; exact ⟨rfl, by norm_num, by norm_num⟩
      · subst h; exact ⟨rfl, by norm_num, by norm_num⟩
      · subst h; exact ⟨rfl, by norm_num, by norm_num⟩
      · have hb := migrateTracksGo_trace_bounds env yid
          (spotifyPlaylistToCommon spd).tracks.length
          (spotifyPlaylistToCommon spd).tracks 0 0 0 (by omega) c
        have hMGo : migrateTracksGo env yid
            (spotifyPlaylistToCommon spd).tracks.length
            (spotifyPlaylistToCommon spd).tracks 0 0 0 = (mm, ff, cc) := hM
        rw [hMGo] at hb
        exact hb h
      · subst h; exact ⟨rfl, by norm_num, by norm_num⟩

/-- C8 amended: for every progress-callback invocation the engine
performs, the value `migration_progress_callback` stores — the percentage
`(current / total) * 100` — lies in the closed interval [0, 100] (not
[0, 1] as claimed: the final invocation stores 100, see the
counterexample). -/
theorem storedProgress_in_percent_range (env : MigrateEnv) (pid : String)
    (c : ProgressCall) (st : MigrationStatus)
    (hc : c ∈ (migratePlaylist env pid).trace) :
    0 ≤ (migrationProgressCallback st c.current c.total
        c.description).progress ∧
    (migrationProgressCallback st c.current c.total
        c.description).progress ≤ 100 := by
  obtain ⟨ht, h0, h4⟩ := migratePlaylist_trace_bounds env pid c hc
  have hp : (migrationProgressCallback st c.current c.total
      c.description).progress = c.current / c.total * 100 := rfl
  rw [hp, ht]
  constructor
  · exact mul_nonneg (div_nonneg h0 (by norm_num)) (by norm_num)
  · have hdiv : c.current / 4 ≤ 1 := (div_le_one (by norm_num)).mpr h4
    calc c.current / 4 * 100 ≤ 1 * 100 :=
          mul_le_mul_of_nonneg_right hdiv (by norm_num)
      _ = 100 := by norm_num

/-- Witness for C8 (amended): the final progress call of a concrete run
stores a value within [0, 100]. -/
theorem storedProgress_in_percent_range_witness :
    0 ≤ (migrationProgressCallback initialMigrationStatus 4 4
        "Migration completed!").progress ∧
    (migrationProgressCallback initialMigrationStatus 4 4
        "Migration completed!").progress ≤ 100 :=
  storedProgress_in_percent_range envEmpty "pl1"
    { current := 4, total := 4, description := "Migration completed!" }
    initialMigrationStatus (by decide)

/-- Helper: dropping a prefix never lengthens a list. -/
theorem dropWhile_length_le (p : Char → Bool) :
    ∀ l : List Char, (l.dropWhile p).length ≤ l.length := by
  intro l
  induction l with
  | nil => simp
  | cons a l ih =>
    by_cases h : p a = true
    · rw [List.dropWhile_cons_of_pos h]
      exact Nat.le_trans ih (by simp)
    · rw [List.dropWhile_cons_of_neg h]

/-- Helper: `dropWhile` is the identity on a list with no character
satisfying the predicate. -/
theorem dropWhile_of_all_false (p : Char → Bool) (l : List Char)
    (h : ∀ x ∈ l, p x = false) : l.dropWhile p = l := by
  cases l with
  | nil => rfl
  | cons a l =>
    exact List.dropWhile_cons_of_neg
      (by simp [h a (List.mem_cons_self a l)])

/-- Helper: the head of a nonempty `dropWhile` fails the predicate. -/
theorem dropWhile_head_false (p : Char → Bool) :
    ∀ (l : List Char) (d : Char) (ds : List Char),
      l.dropWhile p = d :: ds → p d = false := by
  intro l
  induction l with
  | nil =>
    intro d ds h
    simp at h
  | cons a l ih =>
    intro d ds h
    by_cases ha : p a = true
    · rw [List.dropWhile_cons_of_pos ha] at h
      exact ih d ds h
    · rw [List.dropWhile_cons_of_neg ha] at h
      injection h with h1 _
      subst h1
      simpa using ha

/-- Helper: `dropWhile` distributes over an append whose first part
contains a character failing the predicate. -/
theorem dropWhile_append_of_exists (p : Char → Bool) :
    ∀ a b : List Char, (∃ x, x ∈ a ∧ p x = false) →
      (a ++ b).dropWhile p = a.dropWhile p ++ b := by
  intro a
  induction a with
  | nil =>
    intro b h
    rcases h with ⟨x, hx, _⟩
    simp at hx
  | cons c a ih =>
    intro b h
    by_cases hc : p c = true
    · rw [List.cons_append, List.dropWhile_cons_of_pos hc,
        List.dropWhile_cons_of_pos hc]
      apply ih
      rcases h with ⟨x, hx, hpx⟩
      rcases List.mem_cons.mp hx with rfl | hmem
      · simp [hc] at hpx
      · exact ⟨x, hmem, hpx⟩
    · rw [List.cons_append, List.dropWhile_cons_of_neg hc,
        List.dropWhile_cons_of_neg hc, List.cons_append]

/-- Helper: stripping discards a leading whitespace character. -/
theorem stripWs_cons_of_ws (c : Char) (x : List Char)
    (h : isWsChar c = true) : stripWs (c :: x) = stripWs x := by
  unfold stripWs
  rw [List.dropWhile_cons_of_pos h]

/-- Helper: stripping is the identity on a whitespace-free list. -/
theorem stripWs_of_no_ws (w : List Char)
    (h : ∀ x ∈ w, isWsChar x = false) : stripWs w = w := by
  unfold stripWs
  rw [dropWhile_of_all_false _ w h,
    dropWhile_of_all_false _ w.reverse
      (fun x hx => h x (List.mem_reverse.mp hx)),
    List.reverse_reverse]

/-- Helper: inside a whitespace run the collapser behaves as if restarted
after the run. -/
theorem collapseWsAux_true_eq (s : List Char) :
    collapseWsAux s true = collapseWs (s.dropWhile isWsChar) := by
  induction s with
  | nil => rfl
  | cons c cs ih =>
    by_cases h : isWsChar c = true
    · rw [List.dropWhile_cons_of_pos h, ← ih]
      simp [collapseWsAux, h]
    · rw [List.dropWhile_cons_of_neg h]
      simp [collapseWs, collapseWsAux, h]

/-- Helper: the collapser copies a whitespace-free prefix verbatim. -/
theorem collapseWsAux_nonws_front (w r : List Char)
    (h : ∀ x ∈ w, isWsChar x = false) :
    collapseWsAux (w ++ r) false = w ++ collapseWsAux r false := by
  induction w with
  | nil => simp
  | cons c w ih =>
    have hc : isWsChar c = false := h c (List.mem_cons_self c w)
    rw [List.cons_append]
    simp only [collapseWsAux, hc, Bool.false_eq_true, if_false,
      List.cons_append]
    rw [ih (fun x hx => h x (List.mem_cons_of_mem c hx))]

/-- Helper: the word splitter pushes a separator-free prefix into the
accumulator. -/
theorem wordsByAux_nonsep_front (p : Char → Bool) :
    ∀ w r acc : List Char, (∀ x ∈ w, p x = false) →
      wordsByAux p (w ++ r) acc = wordsByAux p r (w.reverse ++ acc) := by
  intro w
  induction w with
  | nil =>
    intro r acc _
    simp
  | cons c w ih =>
    intro r acc h
    have hc : p c = false := h c (List.mem_cons_self c w)
    rw [List.cons_append]
    rw [show wordsByAux p (c :: (w ++ r)) acc =
        wordsByAux p (w ++ r) (c :: acc) from by simp [wordsByAux, hc]]
    rw [ih r (c :: acc) (fun x hx => h x (List.mem_cons_of_mem c hx))]
    congr 1
    rw [List.reverse_cons, List.append_assoc]
    rfl

/-- Helper: with an empty accumulator the word splitter skips leading
separators. -/
theorem wordsByAux_dropWhile (p : Char → Bool) :
    ∀ s : List Char, wordsByAux p s [] = wordsByAux p (s.dropWhile p) [] := by
  intro s
  induction s with
  | nil => rfl
  | cons c cs ih =>
    by_cases h : p c = true
    · rw [List.dropWhile_cons_of_pos h]
      rw [show wordsByAux p (c :: cs) [] = wordsByAux p cs [] from by
        simp [wordsByAux, h]]
      exact ih
    · rw [List.dropWhile_cons_of_neg h]

/-- Helper: the word splitter with a nonempty accumulator emits at least
one word. -/
theorem wordsByAux_ne_nil (p : Char → Bool) :
    ∀ s acc : List Char, acc ≠ [] → wordsByAux p s acc ≠ [] := by
  intro s
  induction s with
  | nil =>
    intro acc h
    simp [wordsByAux, h]
  | cons c cs ih =>
    intro acc h
    by_cases hc : p c = true
    · have hne : acc.isEmpty = false := by
        cases acc with
        | nil => cases h rfl
        | cons a as => rfl
      simp [wordsByAux, hc, hne]
    · rw [show wordsByAux p (c :: cs) acc = wordsByAux p cs (c :: acc)
        from by simp [wordsByAux, hc]]
      exact ih (c :: acc) (by simp)

/-- Helper: a single word intercalates to itself. -/
theorem intercalate_single (sep w : List Char) :
    List.intercalate sep [w] = w := by
  simp [List.intercalate]

/-- Helper: intercalation over a nonempty tail prepends the head and one
separator. -/
theorem intercalate_cons_of_ne_nil (sep w : List Char)
    (L : List (List Char)) (h : L ≠ []) :
    List.intercalate sep (w :: L) = w ++ sep ++ List.intercalate sep L := by
  cases L with
  | nil => cases h rfl
  | cons l ls => simp [List.intercalate, List.intersperse_cons_cons]

/-- Helper: stripping removes exactly the one trailing space after a
whitespace-free word. -/
theorem stripWs_word_trailing (c : Char) (w : List Char)
    (hu : ∀ x ∈ (c :: w), isWsChar x = false) :
    stripWs ((c :: w) ++ [' ']) = c :: w := by
  unfold stripWs
  rw [List.cons_append, List.dropWhile_cons_of_neg
    (by simp [hu c (List.mem_cons_self c w)])]
  rw [← List.cons_append, List.reverse_append]
  rw [show ([' '] : List Char).reverse = [' '] from rfl]
  rw [List.cons_append, List.nil_append]
  rw [List.dropWhile_cons_of_pos (by decide)]
  rw [dropWhile_of_all_false _ _
    (fun x hx => hu x (List.mem_reverse.mp hx))]
  rw [List.reverse_reverse]

/-- Helper: stripping a word, a space and a further non-whitespace-headed
part keeps the word and the space and strips only the tail. -/
theorem stripWs_word_space_word (c : Char) (w : List Char) (e : Char)
    (y : List Char) (hu : ∀ x ∈ (c :: w), isWsChar x = false)
    (he : isWsChar e = false) :
    stripWs ((c :: w) ++ ' ' :: e :: y) =
      (c :: w) ++ ' ' :: stripWs (e :: y) := by
  unfold stripWs
  rw [List.cons_append, List.dropWhile_cons_of_neg
    (by simp [hu c (List.mem_cons_self c w)])]
  rw [← List.cons_append, List.reverse_append]
  rw [show (' ' :: e :: y).reverse = (e :: y).reverse ++ [' '] from by
    rw [List.reverse_cons]]
  rw [List.append_assoc]
  rw [dropWhile_append_of_exists isWsChar (e :: y).reverse
    ([' '] ++ (c :: w).reverse) ⟨e, by simp, he⟩]
  rw [List.reverse_append]
  rw [show (([' '] : List Char) ++ (c :: w).reverse).reverse =
      (c :: w) ++ [' '] from by
    rw [List.reverse_append, List.reverse_reverse]
    rfl]
  rw [List.dropWhile_cons_of_neg (by simp [he])]
  rw [List.append_assoc]
  rfl

/-- Helper: collapsing whitespace runs and stripping equals intercalating
the whitespace-separated words with single spaces (by strong induction on
the length bound `fuelN`). -/
theorem stripCollapse_words_fuel :
    ∀ (fuelN : Nat) (s : List Char), s.length ≤ fuelN →
      stripWs (collapseWs s) =
        List.intercalate [' '] (wordsBy isWsChar s) := by
  intro fuelN
  induction fuelN with
  | zero =>
    intro s hs
    have hnil : s = [] := List.eq_nil_of_length_eq_zero (by omega)
    subst hnil
    rfl
  | succ N ih =>
    intro s hs
    cases s with
    | nil => rfl
    | cons c cs =>
      by_cases hwc : isWsChar c = true
      · have h1 : collapseWs (c :: cs) = ' ' :: collapseWsAux cs true := by
          simp [collapseWs, collapseWsAux, hwc]
        have h4 : wordsBy isWsChar (c :: cs) =
            wordsBy isWsChar (cs.dropWhile isWsChar) := by
          unfold wordsBy
          rw [show wordsByAux isWsChar (c :: cs) [] =
            wordsByAux isWsChar cs [] from by simp [wordsByAux, hwc]]
          exact wordsByAux_dropWhile isWsChar cs
        rw [h1, collapseWsAux_true_eq, stripWs_cons_of_ws ' ' _ (by decide),
          h4]
        refine ih (cs.dropWhile isWsChar)
          (le_trans (dropWhile_length_le isWsChar cs) ?_)
        simp only [List.length_cons] at hs
        omega
      · have hwc' : isWsChar c = false := by simpa using hwc
        have hcs := List.takeWhile_append_dropWhile
          (fun x => !isWsChar x) cs
        have hwall : ∀ x ∈ (c :: cs.takeWhile (fun x => !isWsChar x)),
            isWsChar x = false := by
          intro x hx
          rcases List.mem_cons.mp hx with rfl | hmem
          · exact hwc'
          · simpa using List.mem_takeWhile_imp hmem
        have hcol : collapseWs (c :: cs) =
            (c :: cs.takeWhile (fun x => !isWsChar x)) ++
              collapseWsAux (cs.dropWhile (fun x => !isWsChar x)) false := by
          conv_lhs => rw [← hcs]
          exact collapseWsAux_nonws_front
            (c :: cs.takeWhile (fun x => !isWsChar x))
            (cs.dropWhile (fun x => !isWsChar x)) hwall
        have hwords : wordsBy isWsChar (c :: cs) =
            wordsByAux isWsChar (cs.dropWhile (fun x => !isWsChar x))
              (c :: cs.takeWhile (fun x => !isWsChar x)).reverse := by
          unfold wordsBy
          conv_lhs => rw [← hcs]
          rw [show (c :: (cs.takeWhile (fun x => !isWsChar x) ++
              cs.dropWhile (fun x => !isWsChar x))) =
            (c :: cs.takeWhile (fun x => !isWsChar x)) ++
              cs.dropWhile (fun x => !isWsChar x) from rfl]
          rw [wordsByAux_nonsep_front isWsChar
            (c :: cs.takeWhile (fun x => !isWsChar x))
            (cs.dropWhile (fun x => !isWsChar x)) [] hwall]
          rw [List.append_nil]
        rcases hrr : cs.dropWhile (fun x => !isWsChar x) with _ | ⟨d, ds⟩
        · -- the whole remainder is one word
          rw [hcol, hrr]
          rw [show collapseWsAux ([] : List Char) false = [] from rfl,
            List.append_nil]
          rw [stripWs_of_no_ws _ hwall]
          rw [hwords, hrr]
          rw [show wordsByAux isWsChar ([] : List Char)
              (c :: cs.takeWhile (fun x => !isWsChar x)).reverse =
            [(c :: cs.takeWhile (fun x => !isWsChar x)).reverse.reverse]
            from by simp [wordsByAux]]
          rw [List.reverse_reverse, intercalate_single]
        · -- a whitespace separator follows the first word
          have hd : isWsChar d = true := by
            have := dropWhile_head_false (fun x => !isWsChar x) cs d ds hrr
            simpa using this
          have hlen_cs : cs.length =
              (cs.takeWhile (fun x => !isWsChar x)).length + 1 +
                ds.length := by
            conv_lhs => rw [← hcs]
            rw [hrr]
            simp [List.length_append]
            omega
          have hwordsr : wordsByAux isWsChar
              (cs.dropWhile (fun x => !isWsChar x))
              (c :: cs.takeWhile (fun x => !isWsChar x)).reverse =
            (c :: cs.takeWhile (fun x => !isWsChar x)) ::
              wordsBy isWsChar (ds.dropWhile isWsChar) := by
            rw [hrr]
            rw [show wordsByAux isWsChar (d :: ds)
                (c :: cs.takeWhile (fun x => !isWsChar x)).reverse =
              (c :: cs.takeWhile (fun x => !isWsChar x)).reverse.reverse ::
                wordsByAux isWsChar ds [] from by
              simp [wordsByAux, hd]]
            rw [List.reverse_reverse]
            rw [show wordsByAux isWsChar ds [] =
              wordsBy isWsChar (ds.dropWhile isWsChar) from
              wordsByAux_dropWhile isWsChar ds]
          have hcolr : collapseWsAux
              (cs.dropWhile (fun x => !isWsChar x)) false =
            ' ' :: collapseWs (ds.dropWhile isWsChar) := by
            rw [hrr]
            rw [show collapseWsAux (d :: ds) false =
              ' ' :: collapseWsAux ds true from by
              simp [collapseWsAux, hd]]
            rw [collapseWsAux_true_eq]
          rcases htt : ds.dropWhile isWsChar with _ | ⟨e, es⟩
          · -- trailing whitespace only
            rw [hcol, hcolr, htt]
            rw [show collapseWs ([] : List Char) = [] from rfl]
            rw [stripWs_word_trailing c _ hwall]
            rw [hwords, hwordsr, htt]
            rw [show wordsBy isWsChar ([] : List Char) = [] from rfl]
            rw [intercalate_single]
          · -- a further word follows
            have he : isWsChar e = false :=
              dropWhile_head_false isWsChar ds e es htt
            have hcole : collapseWs (e :: es) =
                e :: collapseWsAux es false := by
              simp [collapseWs, collapseWsAux, he]
            have hwne : wordsBy isWsChar (e :: es) ≠ [] := by
              rw [show wordsBy isWsChar (e :: es) =
                wordsByAux isWsChar es [e] from by
                simp [wordsBy, wordsByAux, he]]
              exact wordsByAux_ne_nil isWsChar es [e] (by simp)
            have hih : stripWs (collapseWs (e :: es)) =
                List.intercalate [' '] (wordsBy isWsChar (e :: es)) := by
              refine ih (e :: es) ?_
              have h1 : (e :: es).length ≤ ds.length := by
                rw [← htt]
                exact dropWhile_length_le isWsChar ds
              simp only [List.length_cons] at hs h1 ⊢
              omega
            rw [hcol, hcolr, htt, hcole]
            rw [stripWs_word_space_word c _ e _ hwall he]
            rw [← hcole, hih]
            rw [hwords, hwordsr, htt]
            rw [intercalate_cons_of_ne_nil [' ']
              (c :: cs.takeWhile (fun x => !isWsChar x))
              (wordsBy isWsChar (e :: es)) hwne]
            rw [List.append_assoc]
            rfl

/-- Helper: the collapse-and-strip pipeline equals the space-intercalated
whitespace-separated words. -/
theorem stripCollapse_words (s : List Char) :
    stripWs (collapseWs s) =
      List.intercalate [' '] (wordsBy isWsChar s) :=
  stripCollapse_words_fuel s.length s le_rfl

/-- Helper: splitting the space-replaced list at whitespace is splitting
the original list at whitespace-or-disallowed characters (the replacement
only turns disallowed characters into spaces and is the identity inside
words). -/
theorem wordsByAux_replace (s : List Char) :
    ∀ acc : List Char,
      wordsByAux isWsChar (replaceDisallowed s) acc =
        wordsByAux querySplitChar s acc := by
  induction s with
  | nil => intro acc; rfl
  | cons c cs ih =>
    intro acc
    by_cases hall : isAllowedChar c = true
    · have hrep : replaceDisallowed (c :: cs) =
          c :: replaceDisallowed cs := by
        simp [replaceDisallowed, hall]
      have hq : querySplitChar c = isWsChar c := by
        simp [querySplitChar, hall]
      rw [hrep]
      by_cases hws : isWsChar c = true
      · rw [show wordsByAux isWsChar (c :: replaceDisallowed cs) acc =
            if acc.isEmpty then wordsByAux isWsChar (replaceDisallowed cs) []
            else acc.reverse :: wordsByAux isWsChar (replaceDisallowed cs) []
          from by simp [wordsByAux, hws]]
        rw [show wordsByAux querySplitChar (c :: cs) acc =
            if acc.isEmpty then wordsByAux querySplitChar cs []
            else acc.reverse :: wordsByAux querySplitChar cs []
          from by simp [wordsByAux, hq, hws]]
        by_cases hacc : acc.isEmpty <;> simp [hacc, ih []]
      · have hws' : isWsChar c = false := by simpa using hws
        rw [show wordsByAux isWsChar (c :: replaceDisallowed cs) acc =
            wordsByAux isWsChar (replaceDisallowed cs) (c :: acc)
          from by simp [wordsByAux, hws']]
        rw [show wordsByAux querySplitChar (c :: cs) acc =
            wordsByAux querySplitChar cs (c :: acc)
          from by simp [wordsByAux, hq, hws']]
        exact ih (c :: acc)
    · have hrep : replaceDisallowed (c :: cs) =
          ' ' :: replaceDisallowed cs := by
        simp [replaceDisallowed, hall]
      have hq : querySplitChar c = true := by
        simp [querySplitChar, hall]
      have hsp : isWsChar ' ' = true := by decide
      rw [hrep]
      rw [show wordsByAux isWsChar (' ' :: replaceDisallowed cs) acc =
          if acc.isEmpty then wordsByAux isWsChar (replaceDisallowed cs) []
          else acc.reverse :: wordsByAux isWsChar (replaceDisallowed cs) []
        from by simp [wordsByAux, hsp]]
      rw [show wordsByAux querySplitChar (c :: cs) acc =
          if acc.isEmpty then wordsByAux querySplitChar cs []
          else acc.reverse :: wordsByAux querySplitChar cs []
        from by simp [wordsByAux, hq]]
      by_cases hacc : acc.isEmpty <;> simp [hacc, ih []]

/-- Counterexample to C9 as stated: the claim says characters outside
`[\w\s\-'.]` are removed, but the code replaces them with a space; on the
title `a!b` with no artists the code yields `a b`, while removal (the
claim's reading, `buildQueryRemovalSpec`) yields `ab`. -/
theorem query_replaces_not_removes_counterexample :
    createYoutubeSearchQuery trackEx = "a b" ∧
    buildQueryRemovalSpec trackEx = "ab" ∧
    createYoutubeSearchQuery trackEx ≠ buildQueryRemovalSpec trackEx := by
  refine ⟨by decide, by decide, by decide⟩

/-- C9 amended: the query builder is a deterministic pure function of the
track's title and artist names: it joins the title and the
comma-separated artist names with one space, and returns the
single-space-separated concatenation of the maximal runs of characters
that are neither whitespace nor outside the word/hyphen/apostrophe/period
class (each disallowed character is replaced by a space, not removed, and
whitespace runs are collapsed, with no leading or trailing whitespace). -/
theorem createYoutubeSearchQuery_words (t : Track) :
    createYoutubeSearchQuery t =
      String.mk (List.intercalate [' ']
        (wordsBy querySplitChar
          (t.title ++ " " ++ String.intercalate ", " t.artists).data)) := by
  show String.mk (stripWs (collapseWs (replaceDisallowed
      (t.title ++ " " ++ String.intercalate ", " t.artists).data))) = _
  rw [stripCollapse_words]
  rw [show wordsBy isWsChar (replaceDisallowed
      (t.title ++ " " ++ String.intercalate ", " t.artists).data) =
    wordsBy querySplitChar
      (t.title ++ " " ++ String.intercalate ", " t.artists).data from
    wordsByAux_replace _ []]

/-- Counterexample to C8 as stated: the engine's final progress invocation
`(4, 4)` is recorded in a concrete run, and the value the callback stores
for it is `(4 / 4) * 100 = 100`, far outside [0, 1] — the stored field is
a percentage, not a ratio. -/
theorem progress_percent_counterexample :
    ({ current := 4, total := 4, description := "Migration completed!" } :
        ProgressCall) ∈ (migratePlaylist envEmpty "pl1").trace ∧
    (migrationProgressCallback initialMigrationStatus 4 4
        "Migration completed!").progress = 100 ∧
    ¬ (migrationProgressCallback initialMigrationStatus 4 4
        "Migration completed!").progress ≤ 1 := by
  refine ⟨by decide, ?_, ?_⟩
  · have hp : (migrationProgressCallback initialMigrationStatus 4 4
        "Migration completed!").progress = 4 / 4 * 100 := rfl
    rw [hp]
    norm_num
  · have hp : (migrationProgressCallback initialMigrationStatus 4 4
        "Migration completed!").progress = 4 / 4 * 100 := rfl
    rw [hp]
    norm_num
